import Mathlib

/-!
Shallow embedding of the chatbot repository (src/chatbot.py and
src/chatbot_sqlite.py): the message data model, the SQLite-backed store
operations, the context-window builder, the in-memory history trimmer and the
turn orchestrator, together with theorems settling the frozen claims about
them. The model endpoint and the web-search collaborator are external; they
enter the embedding as explicit parameters (oracle responses / result
functions), exactly at the points where the source calls out to them.
-/

namespace Chatbot

/-- The closed role set of the `messages` table:
`CHECK(role IN ('system','user','assistant','tool'))`. -/
inductive Role where
  | system
  | user
  | assistant
  | tool
deriving DecidableEq, Repr

/-- One row of the `messages` table for a fixed conversation (and equally one
of the message dicts that the Python code passes around): role, text content,
optional tool-call correlation id. The autoincrement id is represented by
list position: a conversation log is a `List Message` in ascending id order. -/
structure Message where
  role : Role
  content : String
  tool_call_id : Option String
deriving DecidableEq, Repr

/-- One entry of an OpenAI response's `tool_calls`: `tool_call.id`,
`tool_call.function.name`, `tool_call.function.arguments` (JSON text). -/
structure ToolCall where
  id : String
  name : String
  arguments : String
deriving DecidableEq, Repr

/-- The model endpoint's response message `resp.choices[0].message`:
`content` may be `None`, `tool_calls` is empty when no tool is requested. -/
structure ModelMessage where
  content : Option String
  tool_calls : List ToolCall
deriving DecidableEq, Repr

/-- Python whitespace for `str.strip()`: space, tab, newline, carriage
return, vertical tab, form feed. -/
def isPySpace (c : Char) : Bool :=
  c = ' ' || c = '\t' || c = '\n' || c = '\r' || c = '\x0b' || c = '\x0c'

/-- `str.strip()` on a list of characters: drop whitespace from both ends. -/
def stripL (l : List Char) : List Char :=
  ((l.dropWhile isPySpace).reverse.dropWhile isPySpace).reverse

/-- Python `s.strip()`. -/
def strip (s : String) : String :=
  ⟨stripL s.data⟩

/-- Python slicing `s[:n]` on a string (first `n` code points). -/
def pySlice (n : Nat) (s : String) : String :=
  ⟨s.data.take n⟩

/-! ## chatbot.py: in-memory history trimming -/

/-- `MAX_TURNS_TO_KEEP = 12` from src/chatbot.py. -/
def MAX_TURNS_TO_KEEP : Nat := 12

/-- `trim_history` from src/chatbot.py: keep the leading system message plus
the last `2 * MAX_TURNS_TO_KEEP` messages when the history has grown past
`1 + 2 * MAX_TURNS_TO_KEEP`; otherwise return the history unchanged. -/
def trim_history (history : List Message) : List Message :=
  if history.length ≤ 1 then history
  else
    let max_msgs := 1 + MAX_TURNS_TO_KEEP * 2
    if history.length > max_msgs then
      history.take 1 ++ history.drop (history.length - (max_msgs - 1))
    else history

/-- The last `n` elements of a list, in order. -/
def lastN (n : Nat) (l : List α) : List α :=
  l.drop (l.length - n)

theorem trim_history_cons (h0 : Message) (rest : List Message) :
    trim_history (h0 :: rest) =
      h0 :: lastN (MAX_TURNS_TO_KEEP * 2) rest := by
  unfold trim_history lastN
  by_cases hle : (h0 :: rest).length ≤ 1
  · simp only [List.length_cons] at hle
    have : rest = [] := by
      cases rest with
      | nil => rfl
      | cons a t => simp at hle
    subst this
    simp
  · simp only [if_neg hle]
    simp only [List.length_cons] at hle ⊢
    push_neg at hle
    by_cases hgt : rest.length + 1 > 1 + MAX_TURNS_TO_KEEP * 2
    · simp only [if_pos hgt]
      have hrest : MAX_TURNS_TO_KEEP * 2 ≤ rest.length := by omega
      have hdrop : rest.length + 1 - (1 + MAX_TURNS_TO_KEEP * 2 - 1)
          = (rest.length - MAX_TURNS_TO_KEEP * 2) + 1 := by omega
      simp only [List.take_cons, List.take_zero, hdrop, List.drop_succ_cons]
      rfl
    · simp only [if_neg hgt]
      have : rest.length - MAX_TURNS_TO_KEEP * 2 = 0 := by omega
      simp [this]

theorem lastN_length_le (n : Nat) (l : List α) : (lastN n l).length ≤ n := by
  unfold lastN
  simp only [List.length_drop]
  omega

theorem trim_history_idem (h : List Message) :
    trim_history (trim_history h) = trim_history h := by
  cases h with
  | nil => rfl
  | cons h0 rest =>
    rw [trim_history_cons, trim_history_cons]
    have h1 : lastN (MAX_TURNS_TO_KEEP * 2) (lastN (MAX_TURNS_TO_KEEP * 2) rest)
        = lastN (MAX_TURNS_TO_KEEP * 2) rest := by
      unfold lastN
      have := lastN_length_le (MAX_TURNS_TO_KEEP * 2) rest
      unfold lastN at this
      have h0' : (rest.drop (rest.length - MAX_TURNS_TO_KEEP * 2)).length
          - MAX_TURNS_TO_KEEP * 2 = 0 := by
        simp only [List.length_drop]
        omega
      rw [h0', List.drop_zero]
    rw [h1]

/-- C10: for every history list, `trim_history` keeps the first element (the
system message) in place, bounds the result length by
`1 + 2 * MAX_TURNS_TO_KEEP`, returns exactly the head followed by the most
recent `2 * MAX_TURNS_TO_KEEP`-element suffix of the tail in original order,
and is idempotent. Stated unconditionally over `h0 :: rest`, which covers in
particular every history whose first element is the system message. -/
theorem trim_history_spec (h0 : Message) (rest : List Message) :
    trim_history (h0 :: rest) = h0 :: lastN (MAX_TURNS_TO_KEEP * 2) rest ∧
    (trim_history (h0 :: rest)).length ≤ 1 + 2 * MAX_TURNS_TO_KEEP ∧
    (trim_history (h0 :: rest)).head? = some h0 ∧
    trim_history (trim_history (h0 :: rest)) = trim_history (h0 :: rest) := by
  refine ⟨trim_history_cons h0 rest, ?_, ?_, trim_history_idem _⟩
  · rw [trim_history_cons]
    simp only [List.length_cons]
    have := lastN_length_le (MAX_TURNS_TO_KEEP * 2) rest
    omega
  · rw [trim_history_cons]
    rfl

/-! ## chatbot_sqlite.py: configuration and store operations -/

/-- `CONTEXT_MESSAGES = 24` from src/chatbot_sqlite.py: how many recent
non-system messages to send as context. -/
def CONTEXT_MESSAGES : Nat := 24

/-- The `SYSTEM` prompt constant. -/
def SYSTEM : String :=
  "You are a helpful assistant. " ++
  "If the user asks for anything that may be time-sensitive or needs verification, " ++
  "use web_search to look it up. " ++
  "When you use web_search, cite sources by listing URLs."

/-- `add_message`: one INSERT into `messages`; the new row receives the next
autoincrement id, i.e. it goes to the end of the log. No check relates
`role` to `tool_call_id`: the schema only constrains `role` to the closed
set, and `tool_call_id` is nullable for every role. -/
def add_message (log : List Message) (role : Role) (content : String)
    (tool_call_id : Option String := none) : List Message :=
  log ++ [⟨role, content, tool_call_id⟩]

/-- `create_chat` seeds the new conversation's log with the single system
message (the chats-row insert carries no messages). -/
def create_chat_log : List Message :=
  [⟨Role.system, SYSTEM, none⟩]

/-- How `get_context_messages` turns a fetched non-system row into the dict
sent to OpenAI: tool rows keep their `tool_call_id`, other rows are plain
role/content dicts. -/
def toCtxDict (m : Message) : Message :=
  if m.role = Role.tool then m else ⟨m.role, m.content, none⟩

/-- `get_context_messages`: the first system row (ORDER BY id ASC LIMIT 1)
rendered as a role/content dict, followed by the last `CONTEXT_MESSAGES`
non-system rows (ORDER BY id DESC LIMIT `CONTEXT_MESSAGES`, then iterated in
reverse, i.e. ascending) rendered by `toCtxDict`. -/
def get_context_messages (log : List Message) : List Message :=
  let sys_row := (log.filter (fun m => m.role = Role.system)).head?
  let rows := (log.filter (fun m => ¬ m.role = Role.system)).reverse.take CONTEXT_MESSAGES
  let base : List Message :=
    match sys_row with
    | some s => [⟨Role.system, s.content, none⟩]
    | none => []
  base ++ rows.reverse.map toCtxDict

/-- `fetch_full_history`: the user/assistant rows in ascending id order,
truncated to the first `limit` of them, as role/content dicts. -/
def fetch_full_history (log : List Message) (limit : Nat := 200) : List Message :=
  ((log.filter (fun m => m.role = Role.user ∨ m.role = Role.assistant)).take limit).map
    (fun m => ⟨m.role, m.content, none⟩)

/-- `set_chat_title_if_empty` acting on the conversation's title cell (the
chat row exists): strip the candidate, slice to 80 characters, do nothing if
that is empty, otherwise write it only when the current title is NULL or
blank after stripping. -/
def set_chat_title_if_empty (cur : Option String) (title : String) : Option String :=
  let t := pySlice 80 (strip title)
  if t = "" then cur
  else
    match cur with
    | none => some t
    | some c => if strip c = "" then some t else cur

/-! ## chatbot_sqlite.py: whole-database view for deletion -/

/-- One row of the `chats` table. -/
structure ChatRow where
  id : String
  title : Option String
  created_at : String
deriving DecidableEq, Repr

/-- One row of the `messages` table, with its conversation key. -/
structure MsgRow where
  chat_id : String
  role : Role
  content : String
  tool_call_id : Option String
deriving DecidableEq, Repr

/-- The two relations of the schema. -/
structure DBState where
  chats : List ChatRow
  messages : List MsgRow
deriving DecidableEq, Repr

/-- The referential constraint `FOREIGN KEY(chat_id) REFERENCES chats(id)`:
every message row points at an existing chat row. -/
def FKok (db : DBState) : Prop :=
  ∀ m ∈ db.messages, ∃ c ∈ db.chats, c.id = m.chat_id

/-- `delete_chat`: `DELETE FROM chats WHERE id = ?`; with
`PRAGMA foreign_keys=ON` (set by the `db()` context manager) the schema's
`ON DELETE CASCADE` removes every message row of that chat in the same
statement. A non-matching id deletes zero rows and raises nothing. -/
def delete_chat (db : DBState) (chat_id : String) : DBState :=
  ⟨db.chats.filter (fun c => ¬ c.id = chat_id),
   db.messages.filter (fun m => ¬ m.chat_id = chat_id)⟩

/-! ## chatbot_sqlite.py: the turn orchestrator `chat_turn`

The model endpoint is external: the two `client.chat.completions.create`
calls of a turn are represented by two oracle values `resp1 resp2 :
Except String ModelMessage` (`.error` standing for a raised endpoint
exception). The web-search collaborator, together with `json.loads` on the
arguments and `json.dumps` on the results, is the parameter
`runSearch : String → Except String String` from argument text to result
payload text (`.error` standing for a raised exception). -/

/-- An entry of the in-memory `messages` list inside `chat_turn`: either a
role/content dict (from `get_context_messages` or a tool-result append) or
the raw OpenAI assistant message object appended by `messages.append(msg)`. -/
inductive CtxEntry where
  | dict : Message → CtxEntry
  | modelMsg : ModelMessage → CtxEntry
deriving DecidableEq, Repr

/-- The `for tool_call in msg.tool_calls` loop: calls whose name is not
`web_search` are skipped entirely; for a `web_search` call the search runs,
its payload is persisted as a role=tool row and appended to the in-memory
context; a raised exception aborts the loop (and the turn), keeping the
rows already persisted. Returns the persisted tool rows, the appended
context entries, and the exception if one was raised. -/
def toolLoop (runSearch : String → Except String String) :
    List ToolCall → List Message × List CtxEntry × Option String
  | [] => ([], [], none)
  | tc :: rest =>
    if tc.name = "web_search" then
      match runSearch tc.arguments with
      | Except.error e => ([], [], some e)
      | Except.ok payload =>
        let r := toolLoop runSearch rest
        (⟨Role.tool, payload, some tc.id⟩ :: r.1,
         CtxEntry.dict ⟨Role.tool, payload, some tc.id⟩ :: r.2.1,
         r.2.2)
    else toolLoop runSearch rest

/-- What one `chat_turn` invocation did: the conversation log afterwards,
the title cell afterwards, the endpoint calls it issued (the submitted
message sequence and whether the tool schemas were passed), and the returned
reply or the exception that aborted the turn. -/
structure TurnOutcome where
  log : List Message
  title : Option String
  calls : List (List CtxEntry × Bool)
  result : Except String String
deriving Repr

/-- `chat_turn` from src/chatbot_sqlite.py, one user turn on one
conversation: persist the user message, opportunistically set the title,
build the context window, make the first endpoint call (with tool schemas);
if no tool was requested, strip the content (`None` coalesced to `""`),
persist it as the assistant message and return it; otherwise append the
assistant message object to the in-memory context, run the tool loop, make
the second endpoint call (without tool schemas) on the extended context, and
persist/return `final.choices[0].message.content.strip()` — which raises
(`AttributeError`) when that content is `None`. -/
def chat_turn (log : List Message) (title : Option String) (user_input : String)
    (resp1 resp2 : Except String ModelMessage)
    (runSearch : String → Except String String) : TurnOutcome :=
  let log1 := add_message log Role.user user_input
  let title1 := set_chat_title_if_empty title user_input
  let messages := (get_context_messages log1).map CtxEntry.dict
  let call1 := (messages, true)
  match resp1 with
  | Except.error e => ⟨log1, title1, [call1], Except.error e⟩
  | Except.ok msg =>
    if msg.tool_calls.isEmpty then
      let reply := strip (msg.content.getD "")
      ⟨add_message log1 Role.assistant reply, title1, [call1], Except.ok reply⟩
    else
      let lp := toolLoop runSearch msg.tool_calls
      let log2 := log1 ++ lp.1
      match lp.2.2 with
      | some e => ⟨log2, title1, [call1], Except.error e⟩
      | none =>
        let messages2 := messages ++ [CtxEntry.modelMsg msg] ++ lp.2.1
        let call2 := (messages2, false)
        match resp2 with
        | Except.error e => ⟨log2, title1, [call1, call2], Except.error e⟩
        | Except.ok m2 =>
          match m2.content with
          | none => ⟨log2, title1, [call1, call2], Except.error "AttributeError"⟩
          | some c =>
            let reply := strip c
            ⟨add_message log2 Role.assistant reply, title1, [call1, call2],
             Except.ok reply⟩

/-! ## Helper lemmas about `strip` -/

theorem head?_dropWhile_false {p : α → Bool} {l : List α} {c : α}
    (h : (l.dropWhile p).head? = some c) : p c = false := by
  induction l with
  | nil => simp [List.dropWhile] at h
  | cons a t ih =>
    rw [List.dropWhile_cons] at h
    by_cases hp : p a = true
    · rw [if_pos hp] at h
      exact ih h
    · rw [if_neg hp] at h
      simp only [List.head?_cons, Option.some.injEq] at h
      subst h
      simpa using hp

theorem dropWhile_ne_nil_of_mem {p : α → Bool} {l : List α} {x : α}
    (hx : x ∈ l) (hp : p x = false) : l.dropWhile p ≠ [] := by
  intro hnil
  have hsplit := List.takeWhile_append_dropWhile p l
  rw [hnil, List.append_nil] at hsplit
  rw [← hsplit] at hx
  have := List.mem_takeWhile_imp hx
  rw [hp] at this
  exact Bool.false_ne_true this

theorem mem_dropWhile_of_mem {p : α → Bool} {l : List α} {x : α}
    (hx : x ∈ l) (hp : p x = false) : x ∈ l.dropWhile p := by
  have hsplit := List.takeWhile_append_dropWhile p l
  rw [← hsplit] at hx
  rcases List.mem_append.mp hx with h | h
  · have := List.mem_takeWhile_imp h
    rw [hp] at this
    exact absurd this Bool.false_ne_true
  · exact h

theorem stripL_ne_nil_of_mem {l : List Char} {x : Char}
    (hx : x ∈ l) (hp : isPySpace x = false) : stripL l ≠ [] := by
  unfold stripL
  intro hnil
  rw [List.reverse_eq_nil_iff] at hnil
  have h1 : x ∈ l.dropWhile isPySpace := mem_dropWhile_of_mem hx hp
  have h2 : x ∈ (l.dropWhile isPySpace).reverse := List.mem_reverse.mpr h1
  exact dropWhile_ne_nil_of_mem h2 hp hnil

/-- The first character of a stripped string is never Python whitespace. -/
theorem stripL_head_not_space {l : List Char} {c : Char}
    (h : (stripL l).head? = some c) : isPySpace c = false := by
  unfold stripL at h
  rw [List.head?_reverse] at h
  have hne : (l.dropWhile isPySpace).reverse.dropWhile isPySpace ≠ [] := by
    intro hnil
    rw [hnil] at h
    simp at h
  have hsplit := List.takeWhile_append_dropWhile isPySpace (l.dropWhile isPySpace).reverse
  have hlast : ((l.dropWhile isPySpace).reverse.dropWhile isPySpace).getLast?
      = (l.dropWhile isPySpace).reverse.getLast? := by
    conv_rhs => rw [← hsplit]
    rw [List.getLast?_append_of_ne_nil _ hne]
  rw [hlast, List.getLast?_reverse] at h
  exact head?_dropWhile_false h

theorem strip_take_ne_empty {s : String} (h : strip s ≠ "") (n : Nat) (hn : 0 < n) :
    pySlice n (strip s) ≠ "" ∧ strip (pySlice n (strip s)) ≠ "" := by
  have hdata : stripL s.data ≠ [] := by
    intro hnil
    apply h
    unfold strip
    rw [hnil]
  obtain ⟨c, t, hct⟩ : ∃ c t, stripL s.data = c :: t := by
    cases hck : stripL s.data with
    | nil => exact absurd hck hdata
    | cons c t => exact ⟨c, t, rfl⟩
  have hc : isPySpace c = false := stripL_head_not_space (by rw [hct]; rfl)
  obtain ⟨k, hk⟩ : ∃ k, n = k + 1 := ⟨n - 1, by omega⟩
  have hslice : (pySlice n (strip s)).data = c :: t.take k := by
    show (stripL s.data).take n = c :: t.take k
    rw [hct, hk, List.take_succ_cons]
  constructor
  · intro hempty
    have : (pySlice n (strip s)).data = [] := by rw [hempty]
    rw [hslice] at this
    exact List.cons_ne_nil _ _ this
  · intro hempty
    have hmem : c ∈ (pySlice n (strip s)).data := by
      rw [hslice]; exact List.mem_cons_self _ _
    have hne := stripL_ne_nil_of_mem hmem hc
    apply hne
    have : (strip (pySlice n (strip s))).data = [] := by rw [hempty]
    exact this

/-! ## Claim theorems: store operations -/

/-- C3 counterexample: `add_message` with role=tool and no correlation
identifier succeeds and appends the row — it does not fail, and the log
grows — contradicting the claim that the operation fails with
`InvariantViolation` and appends nothing. -/
theorem add_message_tool_nocorr_cex :
    add_message [] Role.tool "result" none = [⟨Role.tool, "result", none⟩] ∧
    (add_message [] Role.tool "result" none).length = 1 := by
  constructor <;> rfl

/-- C3 amended: `add_message` performs no correlation-id check at all: for
every log and content, a role=tool message with no correlation identifier is
appended successfully (the schema's only constraint on `role` is the closed
set, and `tool_call_id` is nullable). -/
theorem add_message_tool_nocorr (log : List Message) (content : String) :
    add_message log Role.tool content none = log ++ [⟨Role.tool, content, none⟩] :=
  rfl

/-- C8: starting from an unset or blank title, only the first
`set_chat_title_if_empty` call with a non-blank candidate takes effect; the
stored title is the stripped candidate sliced to 80 characters; and once a
non-blank title is stored, every later call leaves it unchanged. -/
theorem set_chat_title_if_empty_spec (cur : Option String) (c1 c2 : String)
    (hblank : cur = none ∨ ∃ c, cur = some c ∧ strip c = "") :
    (strip c1 ≠ "" →
      set_chat_title_if_empty cur c1 = some (pySlice 80 (strip c1)) ∧
      set_chat_title_if_empty (set_chat_title_if_empty cur c1) c2
        = some (pySlice 80 (strip c1))) ∧
    (strip c1 = "" →
      set_chat_title_if_empty cur c1 = cur ∧
      (strip c2 ≠ "" →
        set_chat_title_if_empty (set_chat_title_if_empty cur c1) c2
          = some (pySlice 80 (strip c2)))) ∧
    (∀ t c3, strip t ≠ "" → set_chat_title_if_empty (some t) c3 = some t) := by
  have hstable : ∀ t c3, strip t ≠ "" → set_chat_title_if_empty (some t) c3 = some t := by
    intro t c3 ht
    unfold set_chat_title_if_empty
    by_cases h3 : pySlice 80 (strip c3) = ""
    · rw [if_pos h3]
    · rw [if_neg h3]
      simp only [if_neg ht]
  have hfirst : ∀ d1, strip d1 ≠ "" →
      set_chat_title_if_empty cur d1 = some (pySlice 80 (strip d1)) := by
    intro d1 hd1
    have hne := (strip_take_ne_empty hd1 80 (by norm_num)).1
    unfold set_chat_title_if_empty
    rw [if_neg hne]
    rcases hblank with h | ⟨c, hc, hcs⟩
    · rw [h]
    · rw [hc]
      simp only [if_pos hcs]
  refine ⟨?_, ?_, hstable⟩
  · intro h1
    have hset := hfirst c1 h1
    refine ⟨hset, ?_⟩
    rw [hset]
    exact hstable _ c2 (strip_take_ne_empty h1 80 (by norm_num)).2
  · intro h1
    have hskip : set_chat_title_if_empty cur c1 = cur := by
      unfold set_chat_title_if_empty
      have : pySlice 80 (strip c1) = "" := by
        rw [h1]; rfl
      rw [if_pos this]
    refine ⟨hskip, ?_⟩
    intro h2
    rw [hskip]
    exact hfirst c2 h2

/-- Witness for C8 at concrete inputs: from an unset title, the call with
`" My Chat  "` stores `"My Chat"`, and a later call with a different
candidate leaves it unchanged. -/
theorem set_chat_title_if_empty_spec_witness :
    set_chat_title_if_empty none " My Chat  " = some "My Chat" ∧
    set_chat_title_if_empty (set_chat_title_if_empty none " My Chat  ") "Other"
      = some "My Chat" := by
  have h := (set_chat_title_if_empty_spec none " My Chat  " "Other" (Or.inl rfl)).1
    (by decide)
  have hval : pySlice 80 (strip " My Chat  ") = "My Chat" := by decide
  rw [hval] at h
  exact h

/-- C9: `delete_chat` leaves no chat row with the deleted identifier and no
message row of that conversation (no orphans remain queryable); and when the
identifier does not exist (under the schema's referential constraint), the
operation is a no-op returning the database unchanged rather than an error. -/
theorem delete_chat_spec (db : DBState) (cid : String) :
    (∀ c ∈ (delete_chat db cid).chats, c.id ≠ cid) ∧
    (∀ m ∈ (delete_chat db cid).messages, m.chat_id ≠ cid) ∧
    (FKok db → (∀ c ∈ db.chats, c.id ≠ cid) → delete_chat db cid = db) := by
  refine ⟨?_, ?_, ?_⟩
  · intro c hc
    have := List.mem_filter.mp hc
    simpa using this.2
  · intro m hm
    have := List.mem_filter.mp hm
    simpa using this.2
  · intro hfk hno
    unfold delete_chat
    have h1 : db.chats.filter (fun c => ¬ c.id = cid) = db.chats := by
      rw [List.filter_eq_self]
      intro c hc
      simpa using hno c hc
    have h2 : db.messages.filter (fun m => ¬ m.chat_id = cid) = db.messages := by
      rw [List.filter_eq_self]
      intro m hm
      obtain ⟨c, hc, hcid⟩ := hfk m hm
      simp only [decide_eq_true_eq]
      intro hEq
      exact hno c hc (by rw [hcid, hEq])
    rw [h1, h2]

/-- Witness for C9: deleting a missing identifier from a one-chat database
is a no-op. -/
theorem delete_chat_spec_witness :
    delete_chat ⟨[⟨"a", none, "t0"⟩], [⟨"a", Role.user, "hello", none⟩]⟩ "missing"
      = ⟨[⟨"a", none, "t0"⟩], [⟨"a", Role.user, "hello", none⟩]⟩ :=
  (delete_chat_spec ⟨[⟨"a", none, "t0"⟩], [⟨"a", Role.user, "hello", none⟩]⟩
    "missing").2.2 (by unfold FKok; decide) (by decide)

/-! ## The context window -/

theorem reverse_take_reverse (l : List α) (n : Nat) :
    (l.reverse.take n).reverse = lastN n l := by
  unfold lastN
  rw [List.reverse_take]
  simp

/-- `get_context_messages` with the lets and the match unfolded. -/
theorem get_context_messages_def (log : List Message) :
    get_context_messages log
      = (match (log.filter (fun m => m.role = Role.system)).head? with
          | some s => [⟨Role.system, s.content, none⟩]
          | none => ([] : List Message))
        ++ ((log.filter (fun m => ¬ m.role = Role.system)).reverse.take
              CONTEXT_MESSAGES).reverse.map toCtxDict := rfl

/-- The window never exceeds `1 + CONTEXT_MESSAGES` entries. -/
theorem get_context_messages_length (log : List Message) :
    (get_context_messages log).length ≤ 1 + CONTEXT_MESSAGES := by
  rw [get_context_messages_def]
  have ht := List.length_take_le CONTEXT_MESSAGES
    (log.filter (fun m => ¬ m.role = Role.system)).reverse
  cases h : (log.filter (fun m => m.role = Role.system)).head? with
  | none =>
    simp only [h, List.nil_append, List.length_map, List.length_reverse]
    omega
  | some s =>
    simp only [h, List.length_append, List.length_cons, List.length_nil,
      List.length_map, List.length_reverse]
    omega

/-- On a log that starts with the system message and continues with
non-system messages, the window is exactly the system dict followed by the
last `CONTEXT_MESSAGES` non-system messages in ascending order. -/
theorem get_context_messages_eq (s : Message) (rest : List Message)
    (hs : s.role = Role.system) (hr : ∀ m ∈ rest, m.role ≠ Role.system) :
    get_context_messages (s :: rest)
      = ⟨Role.system, s.content, none⟩ :: (lastN CONTEXT_MESSAGES rest).map toCtxDict := by
  rw [get_context_messages_def]
  have hsys : ((s :: rest).filter (fun m => m.role = Role.system)).head? = some s := by
    rw [List.filter_cons]
    simp [hs]
  have hnon : (s :: rest).filter (fun m => ¬ m.role = Role.system) = rest := by
    rw [List.filter_cons]
    have h0 : (decide ¬ s.role = Role.system) = false := by simp [hs]
    rw [h0]
    simp only [Bool.false_eq_true, if_false]
    exact List.filter_eq_self.mpr (fun m hm => by simpa using hr m hm)
  rw [hsys, hnon, reverse_take_reverse]
  rfl

/-- C5 (amended): on a well-formed log — system message first, non-system
messages after it, at most 200 of them user/assistant — the window is the
system dict plus the last `CONTEXT_MESSAGES` non-system messages in
ascending order and is bounded by `1 + CONTEXT_MESSAGES`; and
`fetch_full_history` returns every user/assistant message of the log in
ascending order, in particular those older than the window. Tool messages
older than the window are not in `fetch_full_history`, which only selects
the user and assistant roles (see the counterexample). -/
theorem get_context_messages_spec (s : Message) (rest : List Message)
    (hs : s.role = Role.system) (hr : ∀ m ∈ rest, m.role ≠ Role.system)
    (hcount : (rest.filter
      (fun m => m.role = Role.user ∨ m.role = Role.assistant)).length ≤ 200) :
    get_context_messages (s :: rest)
      = ⟨Role.system, s.content, none⟩ :: (lastN CONTEXT_MESSAGES rest).map toCtxDict ∧
    (get_context_messages (s :: rest)).length ≤ 1 + CONTEXT_MESSAGES ∧
    fetch_full_history (s :: rest) 200
      = (rest.filter (fun m => m.role = Role.user ∨ m.role = Role.assistant)).map
          (fun m => ⟨m.role, m.content, none⟩) := by
  refine ⟨get_context_messages_eq s rest hs hr, get_context_messages_length _, ?_⟩
  unfold fetch_full_history
  have hhead : (s :: rest).filter
      (fun m => m.role = Role.user ∨ m.role = Role.assistant)
      = rest.filter (fun m => m.role = Role.user ∨ m.role = Role.assistant) := by
    rw [List.filter_cons]
    have h0 : (decide (s.role = Role.user ∨ s.role = Role.assistant)) = false := by
      rw [hs]; decide
    rw [h0]
    simp
  rw [hhead, List.take_of_length_le hcount]

/-- Witness for C5: a conversation of a system message and two turns. -/
theorem get_context_messages_spec_witness :
    get_context_messages
        [⟨Role.system, SYSTEM, none⟩, ⟨Role.user, "hi", none⟩,
         ⟨Role.assistant, "hello", none⟩]
      = [⟨Role.system, SYSTEM, none⟩, ⟨Role.user, "hi", none⟩,
         ⟨Role.assistant, "hello", none⟩] ∧
    fetch_full_history
        [⟨Role.system, SYSTEM, none⟩, ⟨Role.user, "hi", none⟩,
         ⟨Role.assistant, "hello", none⟩] 200
      = [⟨Role.user, "hi", none⟩, ⟨Role.assistant, "hello", none⟩] := by
  have h := get_context_messages_spec ⟨Role.system, SYSTEM, none⟩
    [⟨Role.user, "hi", none⟩, ⟨Role.assistant, "hello", none⟩]
    rfl (by decide) (by decide)
  refine ⟨?_, ?_⟩
  · rw [h.1]
    rfl
  · rw [h.2.2]
    rfl

/-- C5 counterexample: a tool message older than the window is absent from
the window, but it is also absent from `fetch_full_history`, which selects
only user/assistant rows — refuting the claim that every message older than
the window is still returned by `fullHistory`. -/
theorem fetch_full_history_cex :
    (⟨Role.tool, "old-tool", some "x"⟩ : Message)
        ∈ create_chat_log ++ [⟨Role.tool, "old-tool", some "x"⟩]
            ++ List.replicate 24 (⟨Role.user, "u", none⟩ : Message) ∧
    (∀ m ∈ get_context_messages (create_chat_log ++ [⟨Role.tool, "old-tool", some "x"⟩]
            ++ List.replicate 24 (⟨Role.user, "u", none⟩ : Message)),
        m.content ≠ "old-tool") ∧
    (∀ m ∈ fetch_full_history (create_chat_log ++ [⟨Role.tool, "old-tool", some "x"⟩]
            ++ List.replicate 24 (⟨Role.user, "u", none⟩ : Message)) 200,
        m.content ≠ "old-tool") := by
  decide

/-! ## Properties of the tool loop -/

theorem toolLoop_msgs_tool (srch : String → Except String String)
    (tcs : List ToolCall) : ∀ m ∈ (toolLoop srch tcs).1, m.role = Role.tool := by
  induction tcs with
  | nil => intro m hm; simp [toolLoop] at hm
  | cons tc rest ih =>
    intro m hm
    unfold toolLoop at hm
    by_cases hname : tc.name = "web_search"
    · rw [if_pos hname] at hm
      cases hr : srch tc.arguments with
      | error e => rw [hr] at hm; simp at hm
      | ok payload =>
        rw [hr] at hm
        rcases List.mem_cons.mp hm with h | h
        · rw [h]
        · exact ih m h
    · rw [if_neg hname] at hm
      exact ih m hm

theorem toolLoop_lengths (srch : String → Except String String)
    (tcs : List ToolCall) :
    (toolLoop srch tcs).1.length ≤ tcs.length ∧
    (toolLoop srch tcs).2.1.length ≤ tcs.length := by
  induction tcs with
  | nil => simp [toolLoop]
  | cons tc rest ih =>
    unfold toolLoop
    by_cases hname : tc.name = "web_search"
    · rw [if_pos hname]
      cases hr : srch tc.arguments with
      | error e => simp
      | ok payload =>
        simp only [List.length_cons]
        omega
    · rw [if_neg hname]
      simp only [List.length_cons]
      omega

theorem toolLoop_skip (srch : String → Except String String)
    (tcs : List ToolCall) (h : ∀ tc ∈ tcs, tc.name ≠ "web_search") :
    toolLoop srch tcs = ([], [], none) := by
  induction tcs with
  | nil => rfl
  | cons tc rest ih =>
    unfold toolLoop
    rw [if_neg (h tc (List.mem_cons_self _ _))]
    exact ih (fun x hx => h x (List.mem_cons_of_mem _ hx))

/-! ## Branch equations for `chat_turn` -/

theorem chat_turn_eq_err1 (log : List Message) (title : Option String)
    (u : String) (e : String) (r2 : Except String ModelMessage)
    (srch : String → Except String String) :
    chat_turn log title u (Except.error e) r2 srch
      = ⟨add_message log Role.user u, set_chat_title_if_empty title u,
         [((get_context_messages (add_message log Role.user u)).map CtxEntry.dict, true)],
         Except.error e⟩ := rfl

theorem chat_turn_eq_no_tools (log : List Message) (title : Option String)
    (u : String) (mc : Option String) (r2 : Except String ModelMessage)
    (srch : String → Except String String) :
    chat_turn log title u (Except.ok ⟨mc, []⟩) r2 srch
      = ⟨add_message (add_message log Role.user u) Role.assistant (strip (mc.getD "")),
         set_chat_title_if_empty title u,
         [((get_context_messages (add_message log Role.user u)).map CtxEntry.dict, true)],
         Except.ok (strip (mc.getD ""))⟩ := rfl

theorem chat_turn_eq_tool_err (log : List Message) (title : Option String)
    (u : String) (mc : Option String) (tc : ToolCall) (tcs : List ToolCall)
    (r2 : Except String ModelMessage) (srch : String → Except String String)
    (msgs : List Message) (ctx : List CtxEntry) (e : String)
    (hlp : toolLoop srch (tc :: tcs) = (msgs, ctx, some e)) :
    chat_turn log title u (Except.ok ⟨mc, tc :: tcs⟩) r2 srch
      = ⟨add_message log Role.user u ++ msgs, set_chat_title_if_empty title u,
         [((get_context_messages (add_message log Role.user u)).map CtxEntry.dict, true)],
         Except.error e⟩ := by
  unfold chat_turn
  dsimp only
  rw [hlp]
  simp only [List.isEmpty_cons, Bool.false_eq_true, if_false]

theorem chat_turn_eq_err2 (log : List Message) (title : Option String)
    (u : String) (mc : Option String) (tc : ToolCall) (tcs : List ToolCall)
    (e : String) (srch : String → Except String String)
    (msgs : List Message) (ctx : List CtxEntry)
    (hlp : toolLoop srch (tc :: tcs) = (msgs, ctx, none)) :
    chat_turn log title u (Except.ok ⟨mc, tc :: tcs⟩) (Except.error e) srch
      = ⟨add_message log Role.user u ++ msgs, set_chat_title_if_empty title u,
         [((get_context_messages (add_message log Role.user u)).map CtxEntry.dict, true),
          ((get_context_messages (add_message log Role.user u)).map CtxEntry.dict
            ++ [CtxEntry.modelMsg ⟨mc, tc :: tcs⟩] ++ ctx, false)],
         Except.error e⟩ := by
  unfold chat_turn
  dsimp only
  rw [hlp]
  simp only [List.isEmpty_cons, Bool.false_eq_true, if_false]

theorem chat_turn_eq_none_content (log : List Message) (title : Option String)
    (u : String) (mc : Option String) (tc : ToolCall) (tcs : List ToolCall)
    (tcs2 : List ToolCall) (srch : String → Except String String)
    (msgs : List Message) (ctx : List CtxEntry)
    (hlp : toolLoop srch (tc :: tcs) = (msgs, ctx, none)) :
    chat_turn log title u (Except.ok ⟨mc, tc :: tcs⟩) (Except.ok ⟨none, tcs2⟩) srch
      = ⟨add_message log Role.user u ++ msgs, set_chat_title_if_empty title u,
         [((get_context_messages (add_message log Role.user u)).map CtxEntry.dict, true),
          ((get_context_messages (add_message log Role.user u)).map CtxEntry.dict
            ++ [CtxEntry.modelMsg ⟨mc, tc :: tcs⟩] ++ ctx, false)],
         Except.error "AttributeError"⟩ := by
  unfold chat_turn
  dsimp only
  rw [hlp]
  simp only [List.isEmpty_cons, Bool.false_eq_true, if_false]

theorem chat_turn_eq_final (log : List Message) (title : Option String)
    (u : String) (mc : Option String) (tc : ToolCall) (tcs : List ToolCall)
    (c : String) (tcs2 : List ToolCall) (srch : String → Except String String)
    (msgs : List Message) (ctx : List CtxEntry)
    (hlp : toolLoop srch (tc :: tcs) = (msgs, ctx, none)) :
    chat_turn log title u (Except.ok ⟨mc, tc :: tcs⟩) (Except.ok ⟨some c, tcs2⟩) srch
      = ⟨add_message (add_message log Role.user u ++ msgs) Role.assistant (strip c),
         set_chat_title_if_empty title u,
         [((get_context_messages (add_message log Role.user u)).map CtxEntry.dict, true),
          ((get_context_messages (add_message log Role.user u)).map CtxEntry.dict
            ++ [CtxEntry.modelMsg ⟨mc, tc :: tcs⟩] ++ ctx, false)],
         Except.ok (strip c)⟩ := by
  unfold chat_turn
  dsimp only
  rw [hlp]
  simp only [List.isEmpty_cons, Bool.false_eq_true, if_false]

/-- The in-memory context list built for the first endpoint call of a turn. -/
def turnWindow (log : List Message) (u : String) : List CtxEntry :=
  (get_context_messages (add_message log Role.user u)).map CtxEntry.dict

/-- Exhaustive case analysis of one `chat_turn` invocation: endpoint error on
the first call; no tool requested; tool round aborted by a raised search
exception; endpoint error on the second call; second response with `None`
content; completed turn. -/
theorem chat_turn_shape (log : List Message) (title : Option String) (u : String)
    (r1 r2 : Except String ModelMessage) (srch : String → Except String String) :
    (∃ e, r1 = Except.error e ∧
      chat_turn log title u r1 r2 srch
        = ⟨add_message log Role.user u, set_chat_title_if_empty title u,
           [(turnWindow log u, true)], Except.error e⟩) ∨
    (∃ mc, r1 = Except.ok ⟨mc, []⟩ ∧
      chat_turn log title u r1 r2 srch
        = ⟨add_message (add_message log Role.user u) Role.assistant (strip (mc.getD "")),
           set_chat_title_if_empty title u, [(turnWindow log u, true)],
           Except.ok (strip (mc.getD ""))⟩) ∨
    (∃ mc tc tcs msgs ctx e,
      r1 = Except.ok ⟨mc, tc :: tcs⟩ ∧ toolLoop srch (tc :: tcs) = (msgs, ctx, some e) ∧
      chat_turn log title u r1 r2 srch
        = ⟨add_message log Role.user u ++ msgs, set_chat_title_if_empty title u,
           [(turnWindow log u, true)], Except.error e⟩) ∨
    (∃ mc tc tcs msgs ctx e,
      r1 = Except.ok ⟨mc, tc :: tcs⟩ ∧ toolLoop srch (tc :: tcs) = (msgs, ctx, none) ∧
      r2 = Except.error e ∧
      chat_turn log title u r1 r2 srch
        = ⟨add_message log Role.user u ++ msgs, set_chat_title_if_empty title u,
           [(turnWindow log u, true),
            (turnWindow log u ++ [CtxEntry.modelMsg ⟨mc, tc :: tcs⟩] ++ ctx, false)],
           Except.error e⟩) ∨
    (∃ mc tc tcs msgs ctx tcs2,
      r1 = Except.ok ⟨mc, tc :: tcs⟩ ∧ toolLoop srch (tc :: tcs) = (msgs, ctx, none) ∧
      r2 = Except.ok ⟨none, tcs2⟩ ∧
      chat_turn log title u r1 r2 srch
        = ⟨add_message log Role.user u ++ msgs, set_chat_title_if_empty title u,
           [(turnWindow log u, true),
            (turnWindow log u ++ [CtxEntry.modelMsg ⟨mc, tc :: tcs⟩] ++ ctx, false)],
           Except.error "AttributeError"⟩) ∨
    (∃ mc tc tcs msgs ctx c tcs2,
      r1 = Except.ok ⟨mc, tc :: tcs⟩ ∧ toolLoop srch (tc :: tcs) = (msgs, ctx, none) ∧
      r2 = Except.ok ⟨some c, tcs2⟩ ∧
      chat_turn log title u r1 r2 srch
        = ⟨add_message (add_message log Role.user u ++ msgs) Role.assistant (strip c),
           set_chat_title_if_empty title u,
           [(turnWindow log u, true),
            (turnWindow log u ++ [CtxEntry.modelMsg ⟨mc, tc :: tcs⟩] ++ ctx, false)],
           Except.ok (strip c)⟩) := by
  cases r1 with
  | error e => exact Or.inl ⟨e, rfl, chat_turn_eq_err1 log title u e r2 srch⟩
  | ok m =>
    obtain ⟨mc, mtc⟩ := m
    cases mtc with
    | nil =>
      exact Or.inr (Or.inl ⟨mc, rfl, chat_turn_eq_no_tools log title u mc r2 srch⟩)
    | cons tc tcs =>
      rcases hlp : toolLoop srch (tc :: tcs) with ⟨msgs, ctx, err⟩
      cases err with
      | some e =>
        exact Or.inr (Or.inr (Or.inl ⟨mc, tc, tcs, msgs, ctx, e, rfl, hlp,
          chat_turn_eq_tool_err log title u mc tc tcs r2 srch msgs ctx e hlp⟩))
      | none =>
        cases r2 with
        | error e =>
          exact Or.inr (Or.inr (Or.inr (Or.inl ⟨mc, tc, tcs, msgs, ctx, e, rfl, hlp,
            rfl, chat_turn_eq_err2 log title u mc tc tcs e srch msgs ctx hlp⟩)))
        | ok m2 =>
          obtain ⟨m2c, m2tc⟩ := m2
          cases m2c with
          | none =>
            exact Or.inr (Or.inr (Or.inr (Or.inr (Or.inl ⟨mc, tc, tcs, msgs, ctx,
              m2tc, rfl, hlp, rfl,
              chat_turn_eq_none_content log title u mc tc tcs m2tc srch msgs ctx hlp⟩))))
          | some c =>
            exact Or.inr (Or.inr (Or.inr (Or.inr (Or.inr ⟨mc, tc, tcs, msgs, ctx,
              c, m2tc, rfl, hlp, rfl,
              chat_turn_eq_final log title u mc tc tcs c m2tc srch msgs ctx hlp⟩))))

theorem turnWindow_length_le (log : List Message) (u : String) :
    (turnWindow log u).length ≤ 1 + CONTEXT_MESSAGES := by
  unfold turnWindow
  rw [List.length_map]
  exact get_context_messages_length _

/-- C1 (amended): the first endpoint call of a turn always submits at most
`1 + CONTEXT_MESSAGES` messages; the second call is not re-windowed — it
submits the first call's window plus the assistant tool-call message plus
one tool result per executed call, so it is bounded only by
`1 + CONTEXT_MESSAGES + 1 + (number of tool calls in the first response)`
and can exceed `1 + CONTEXT_MESSAGES` (see the counterexample). -/
theorem chat_turn_window_bound (log : List Message) (title : Option String)
    (u : String) (r1 r2 : Except String ModelMessage)
    (srch : String → Except String String) :
    (∀ call ∈ (chat_turn log title u r1 r2 srch).calls.take 1,
       call.1.length ≤ 1 + CONTEXT_MESSAGES) ∧
    (∀ m, r1 = Except.ok m →
       ∀ call ∈ (chat_turn log title u r1 r2 srch).calls.drop 1,
         call.1.length ≤ 1 + CONTEXT_MESSAGES + 1 + m.tool_calls.length) := by
  have hw := turnWindow_length_le log u
  have htool : ∀ (tc : ToolCall) (tcs : List ToolCall) (msgs : List Message)
      (ctx : List CtxEntry) (err : Option String),
      toolLoop srch (tc :: tcs) = (msgs, ctx, err) →
      ctx.length ≤ (tc :: tcs).length := by
    intro tc tcs msgs ctx err hlp
    have := (toolLoop_lengths srch (tc :: tcs)).2
    rw [hlp] at this
    exact this
  rcases chat_turn_shape log title u r1 r2 srch with
    ⟨e, hr1, hout⟩ | ⟨mc, hr1, hout⟩ | ⟨mc, tc, tcs, msgs, ctx, e, hr1, hlp, hout⟩ |
    ⟨mc, tc, tcs, msgs, ctx, e, hr1, hlp, hr2, hout⟩ |
    ⟨mc, tc, tcs, msgs, ctx, tcs2, hr1, hlp, hr2, hout⟩ |
    ⟨mc, tc, tcs, msgs, ctx, c, tcs2, hr1, hlp, hr2, hout⟩ <;> rw [hout]
  · refine ⟨fun call hc => ?_, fun m hm call hc => ?_⟩
    · simp only [List.take_succ_cons, List.take_zero, List.mem_singleton] at hc
      rw [hc]
      exact hw
    · simp at hc
  · refine ⟨fun call hc => ?_, fun m hm call hc => ?_⟩
    · simp only [List.take_succ_cons, List.take_zero, List.mem_singleton] at hc
      rw [hc]
      exact hw
    · simp at hc
  · refine ⟨fun call hc => ?_, fun m hm call hc => ?_⟩
    · simp only [List.take_succ_cons, List.take_zero, List.mem_singleton] at hc
      rw [hc]
      exact hw
    · simp at hc
  · refine ⟨fun call hc => ?_, fun m hm call hc => ?_⟩
    · simp only [List.take_succ_cons, List.take_zero, List.mem_singleton] at hc
      rw [hc]
      exact hw
    · rw [hr1] at hm
      injection hm with hm
      subst hm
      simp only [List.drop_succ_cons, List.drop_zero, List.mem_singleton] at hc
      rw [hc]
      have hctx := htool tc tcs msgs ctx none hlp
      simp only [List.length_append, List.length_cons, List.length_nil,
        List.length_cons] at hctx ⊢
      omega
  · refine ⟨fun call hc => ?_, fun m hm call hc => ?_⟩
    · simp only [List.take_succ_cons, List.take_zero, List.mem_singleton] at hc
      rw [hc]
      exact hw
    · rw [hr1] at hm
      injection hm with hm
      subst hm
      simp only [List.drop_succ_cons, List.drop_zero, List.mem_singleton] at hc
      rw [hc]
      have hctx := htool tc tcs msgs ctx none hlp
      simp only [List.length_append, List.length_cons, List.length_nil,
        List.length_cons] at hctx ⊢
      omega
  · refine ⟨fun call hc => ?_, fun m hm call hc => ?_⟩
    · simp only [List.take_succ_cons, List.take_zero, List.mem_singleton] at hc
      rw [hc]
      exact hw
    · rw [hr1] at hm
      injection hm with hm
      subst hm
      simp only [List.drop_succ_cons, List.drop_zero, List.mem_singleton] at hc
      rw [hc]
      have hctx := htool tc tcs msgs ctx none hlp
      simp only [List.length_append, List.length_cons, List.length_nil,
        List.length_cons] at hctx ⊢
      omega

set_option maxRecDepth 16384 in
/-- C1 counterexample: on a conversation that already holds 24 non-system
messages, the first call submits 25 messages but the second call of a
one-tool round submits 27 > 1 + CONTEXT_MESSAGES, because `chat_turn`
extends the first call's in-memory list instead of re-windowing. -/
theorem chat_turn_window_bound_cex :
    ¬ (∀ call ∈ (chat_turn
          (create_chat_log ++ List.replicate 24 (⟨Role.user, "u", none⟩ : Message))
          none "hi"
          (Except.ok ⟨none, [⟨"id1", "web_search", "q"⟩]⟩)
          (Except.ok ⟨some "done", []⟩)
          (fun _ => Except.ok "payload")).calls,
        call.1.length ≤ 1 + CONTEXT_MESSAGES) ∧
    ((chat_turn
          (create_chat_log ++ List.replicate 24 (⟨Role.user, "u", none⟩ : Message))
          none "hi"
          (Except.ok ⟨none, [⟨"id1", "web_search", "q"⟩]⟩)
          (Except.ok ⟨some "done", []⟩)
          (fun _ => Except.ok "payload")).calls.map (fun call => call.1.length))
      = [25, 27] := by
  constructor
  · decide
  · decide

set_option maxRecDepth 16384 in
/-- Witness for C1 at a fresh conversation: the first call's window is
within the bound, and a one-tool second call is within the amended bound. -/
theorem chat_turn_window_bound_witness :
    ((turnWindow create_chat_log "hi", true) : List CtxEntry × Bool).1.length
        ≤ 1 + CONTEXT_MESSAGES ∧
    ((turnWindow create_chat_log "hi"
        ++ [CtxEntry.modelMsg ⟨none, [⟨"id1", "web_search", "q"⟩]⟩]
        ++ [CtxEntry.dict ⟨Role.tool, "payload", some "id1"⟩],
      false) : List CtxEntry × Bool).1.length
        ≤ 1 + CONTEXT_MESSAGES + 1 + 1 := by
  constructor
  · exact (chat_turn_window_bound create_chat_log none "hi"
      (Except.ok ⟨none, [⟨"id1", "web_search", "q"⟩]⟩) (Except.ok ⟨some "done", []⟩)
      (fun _ => Except.ok "payload")).1
      (turnWindow create_chat_log "hi", true) (by decide)
  · exact (chat_turn_window_bound create_chat_log none "hi"
      (Except.ok ⟨none, [⟨"id1", "web_search", "q"⟩]⟩) (Except.ok ⟨some "done", []⟩)
      (fun _ => Except.ok "payload")).2
      ⟨none, [⟨"id1", "web_search", "q"⟩]⟩ rfl
      (turnWindow create_chat_log "hi"
        ++ [CtxEntry.modelMsg ⟨none, [⟨"id1", "web_search", "q"⟩]⟩]
        ++ [CtxEntry.dict ⟨Role.tool, "payload", some "id1"⟩], false) (by decide)

set_option maxRecDepth 16384 in
/-- C2 counterexample: when the first response requests one tool call with
the unregistered name `"nope"`, the loop skips it silently — the final log
holds only the user and assistant messages and no role=tool message at all,
contradicting the claim that a tool message carrying the error description
is persisted. -/
theorem chat_turn_unknown_tool_cex :
    (chat_turn create_chat_log none "x"
        (Except.ok ⟨none, [⟨"i1", "nope", "args"⟩]⟩)
        (Except.ok ⟨some "answer", []⟩)
        (fun _ => Except.ok "payload")).log
      = create_chat_log ++ [⟨Role.user, "x", none⟩, ⟨Role.assistant, "answer", none⟩] ∧
    (chat_turn create_chat_log none "x"
        (Except.ok ⟨none, [⟨"i1", "nope", "args"⟩]⟩)
        (Except.ok ⟨some "answer", []⟩)
        (fun _ => Except.ok "payload")).log.filter (fun m => m.role = Role.tool)
      = [] := by
  constructor
  · decide
  · decide

/-- C2 (amended): a first response whose tool calls all bear unregistered
names (anything but `web_search`) leads to no tool-result message at all —
the calls are skipped silently, nothing is recorded for them — and the turn
still completes with the second call's model-produced answer: the log gains
exactly the user message and the final assistant message. -/
theorem chat_turn_unknown_tool (log : List Message) (title : Option String)
    (u : String) (m m2 : ModelMessage) (c : String)
    (srch : String → Except String String)
    (h1 : m.tool_calls ≠ [])
    (h2 : ∀ tc ∈ m.tool_calls, tc.name ≠ "web_search")
    (h3 : m2.content = some c) :
    (chat_turn log title u (Except.ok m) (Except.ok m2) srch).result
        = Except.ok (strip c) ∧
    (chat_turn log title u (Except.ok m) (Except.ok m2) srch).log
        = log ++ [⟨Role.user, u, none⟩, ⟨Role.assistant, strip c, none⟩] ∧
    (chat_turn log title u (Except.ok m) (Except.ok m2) srch).calls.length = 2 := by
  obtain ⟨mc, mtc⟩ := m
  cases mtc with
  | nil => exact absurd rfl h1
  | cons tc tcs =>
    obtain ⟨m2c, m2tc⟩ := m2
    simp only [ModelMessage.content, Option.some.injEq] at h3
    have hskip : toolLoop srch (tc :: tcs) = ([], [], none) :=
      toolLoop_skip srch (tc :: tcs) h2
    cases m2c with
    | none => simp at h3
    | some c0 =>
      have hc0 : c0 = c := by simpa using h3
      subst hc0
      rw [chat_turn_eq_final log title u mc tc tcs c0 m2tc srch [] [] hskip]
      refine ⟨rfl, ?_, rfl⟩
      show add_message (add_message log Role.user u ++ []) Role.assistant (strip c0)
        = log ++ [⟨Role.user, u, none⟩, ⟨Role.assistant, strip c0, none⟩]
      simp [add_message]

/-- Witness for C2: a single unknown tool call named `"mystery"`. -/
theorem chat_turn_unknown_tool_witness :
    (chat_turn create_chat_log none "q"
        (Except.ok ⟨none, [⟨"i1", "mystery", "args"⟩]⟩)
        (Except.ok ⟨some " ok ", []⟩)
        (fun _ => Except.ok "payload")).result = Except.ok (strip " ok ") ∧
    (chat_turn create_chat_log none "q"
        (Except.ok ⟨none, [⟨"i1", "mystery", "args"⟩]⟩)
        (Except.ok ⟨some " ok ", []⟩)
        (fun _ => Except.ok "payload")).calls.length = 2 := by
  have h := chat_turn_unknown_tool create_chat_log none "q"
    ⟨none, [⟨"i1", "mystery", "args"⟩]⟩ ⟨some " ok ", []⟩ " ok "
    (fun _ => Except.ok "payload") (by decide) (by decide) rfl
  exact ⟨h.1, h.2.2⟩

/-- C4 (amended): every turn makes at most two endpoint calls; every call
after the first is issued without tool schemas; and when both responses
arrive, the tool calls of the second response are never executed — the log
beyond the first round's tool results gains at most the final assistant
message, regardless of what the second response requests. When the second
response carries text content, that content is logged as the assistant
message and the tool-call request is ignored; when its content is missing
(`None`, the usual case for a tool-call response), the turn aborts with an
error instead of logging anything (see the counterexample). -/
theorem chat_turn_one_round (log : List Message) (title : Option String)
    (u : String) (r1 r2 : Except String ModelMessage)
    (srch : String → Except String String) :
    (chat_turn log title u r1 r2 srch).calls.length ≤ 2 ∧
    (∀ call ∈ (chat_turn log title u r1 r2 srch).calls.drop 1, call.2 = false) ∧
    (∀ m m2, r1 = Except.ok m → r2 = Except.ok m2 → m.tool_calls ≠ [] →
      (toolLoop srch m.tool_calls).2.2 = none →
      ((∀ c, m2.content = some c →
        (chat_turn log title u r1 r2 srch).log
          = log ++ [⟨Role.user, u, none⟩] ++ (toolLoop srch m.tool_calls).1
            ++ [⟨Role.assistant, strip c, none⟩] ∧
        (chat_turn log title u r1 r2 srch).result = Except.ok (strip c)) ∧
      (m2.content = none →
        (chat_turn log title u r1 r2 srch).log
          = log ++ [⟨Role.user, u, none⟩] ++ (toolLoop srch m.tool_calls).1 ∧
        (chat_turn log title u r1 r2 srch).result
          = Except.error "AttributeError"))) := by
  rcases chat_turn_shape log title u r1 r2 srch with
    ⟨e, hr1, hout⟩ | ⟨mc, hr1, hout⟩ | ⟨mc, tc, tcs, msgs, ctx, e, hr1, hlp, hout⟩ |
    ⟨mc, tc, tcs, msgs, ctx, e, hr1, hlp, hr2, hout⟩ |
    ⟨mc, tc, tcs, msgs, ctx, tcs2, hr1, hlp, hr2, hout⟩ |
    ⟨mc, tc, tcs, msgs, ctx, c, tcs2, hr1, hlp, hr2, hout⟩ <;> rw [hout]
  · refine ⟨by simp, by simp, ?_⟩
    intro m m2 hm hm2 hne hloop
    rw [hr1] at hm
    simp at hm
  · refine ⟨by simp, by simp, ?_⟩
    intro m m2 hm hm2 hne hloop
    rw [hr1] at hm
    injection hm with hm
    subst hm
    simp at hne
  · refine ⟨by simp, by simp, ?_⟩
    intro m m2 hm hm2 hne hloop
    rw [hr1] at hm
    injection hm with hm
    subst hm
    rw [hlp] at hloop
    simp at hloop
  · refine ⟨by simp, ?_, ?_⟩
    · intro call hc
      simp only [List.drop_succ_cons, List.drop_zero, List.mem_singleton] at hc
      rw [hc]
    · intro m m2 hm hm2 hne hloop
      rw [hr2] at hm2
      simp at hm2
  · refine ⟨by simp, ?_, ?_⟩
    · intro call hc
      simp only [List.drop_succ_cons, List.drop_zero, List.mem_singleton] at hc
      rw [hc]
    · intro m m2 hm hm2 hne hloop
      rw [hr1] at hm
      injection hm with hm
      subst hm
      rw [hr2] at hm2
      injection hm2 with hm2
      subst hm2
      refine ⟨?_, ?_⟩
      · intro c0 hcc
        simp at hcc
      · intro _
        rw [hlp]
        exact ⟨rfl, rfl⟩
  · refine ⟨by simp, ?_, ?_⟩
    · intro call hc
      simp only [List.drop_succ_cons, List.drop_zero, List.mem_singleton] at hc
      rw [hc]
    · intro m m2 hm hm2 hne hloop
      rw [hr1] at hm
      injection hm with hm
      subst hm
      rw [hr2] at hm2
      injection hm2 with hm2
      subst hm2
      refine ⟨?_, ?_⟩
      · intro c0 hcc
        simp only [ModelMessage.content, Option.some.injEq] at hcc
        subst hcc
        rw [hlp]
        refine ⟨?_, rfl⟩
        simp [add_message]
      · intro hcc
        simp at hcc

set_option maxRecDepth 16384 in
/-- C4 counterexample: when the second response itself requests a tool call
and — as is normal for a tool-call response — carries no text content, the
turn does not log the request as plain text: it aborts with an
`AttributeError` (`final.choices[0].message.content.strip()` on `None`) and
no assistant message is recorded at all. -/
theorem chat_turn_one_round_cex :
    (chat_turn create_chat_log none "x"
        (Except.ok ⟨none, [⟨"i1", "web_search", "q"⟩]⟩)
        (Except.ok ⟨none, [⟨"i2", "web_search", "q2"⟩]⟩)
        (fun _ => Except.ok "payload")).result = Except.error "AttributeError" ∧
    (chat_turn create_chat_log none "x"
        (Except.ok ⟨none, [⟨"i1", "web_search", "q"⟩]⟩)
        (Except.ok ⟨none, [⟨"i2", "web_search", "q2"⟩]⟩)
        (fun _ => Except.ok "payload")).log.filter
      (fun m => m.role = Role.assistant) = [] := by
  constructor
  · rfl
  · rfl

set_option maxRecDepth 16384 in
/-- Witness for C4: a full tool round whose second response again requests a
tool call but carries text content; the request is ignored and the text is
logged. -/
theorem chat_turn_one_round_witness :
    (chat_turn create_chat_log none "w"
        (Except.ok ⟨none, [⟨"i1", "web_search", "q"⟩]⟩)
        (Except.ok ⟨some " fin ", [⟨"i2", "web_search", "q2"⟩]⟩)
        (fun _ => Except.ok "payload")).calls.length ≤ 2 ∧
    ((turnWindow create_chat_log "w"
        ++ [CtxEntry.modelMsg ⟨none, [⟨"i1", "web_search", "q"⟩]⟩]
        ++ [CtxEntry.dict ⟨Role.tool, "payload", some "i1"⟩],
      false) : List CtxEntry × Bool).2 = false ∧
    (chat_turn create_chat_log none "w"
        (Except.ok ⟨none, [⟨"i1", "web_search", "q"⟩]⟩)
        (Except.ok ⟨some " fin ", [⟨"i2", "web_search", "q2"⟩]⟩)
        (fun _ => Except.ok "payload")).result = Except.ok (strip " fin ") := by
  have h := chat_turn_one_round create_chat_log none "w"
    (Except.ok ⟨none, [⟨"i1", "web_search", "q"⟩]⟩)
    (Except.ok ⟨some " fin ", [⟨"i2", "web_search", "q2"⟩]⟩)
    (fun _ => Except.ok "payload")
  refine ⟨h.1, ?_, ?_⟩
  · exact h.2.1 (turnWindow create_chat_log "w"
      ++ [CtxEntry.modelMsg ⟨none, [⟨"i1", "web_search", "q"⟩]⟩]
      ++ [CtxEntry.dict ⟨Role.tool, "payload", some "i1"⟩], false) (by decide)
  · exact ((h.2.2 ⟨none, [⟨"i1", "web_search", "q"⟩]⟩
      ⟨some " fin ", [⟨"i2", "web_search", "q2"⟩]⟩ rfl rfl (by decide)
      (by decide)).1 " fin " rfl).2

/-- The freshly appended user message is always inside the window built for
the first endpoint call: it is the newest non-system row, so the DESC LIMIT
fetch always includes it. -/
theorem mem_get_context_messages_last (log : List Message) (u : String) :
    (⟨Role.user, u, none⟩ : Message)
      ∈ get_context_messages (log ++ [⟨Role.user, u, none⟩]) := by
  rw [get_context_messages_def]
  apply List.mem_append_right
  have hfil : (log ++ ([⟨Role.user, u, none⟩] : List Message)).filter
        (fun m => ¬ m.role = Role.system)
      = log.filter (fun m => ¬ m.role = Role.system)
        ++ ([⟨Role.user, u, none⟩] : List Message) := by
    rw [List.filter_append]
    simp
  rw [hfil, List.reverse_append]
  simp only [List.reverse_cons, List.reverse_nil, List.nil_append,
    List.singleton_append]
  have h24 : CONTEXT_MESSAGES = 23 + 1 := rfl
  rw [h24, List.take_succ_cons]
  apply List.mem_map.mpr
  refine ⟨⟨Role.user, u, none⟩, ?_, rfl⟩
  rw [List.mem_reverse]
  exact List.mem_cons_self _ _

theorem user_mem_turnWindow (log : List Message) (u : String) :
    CtxEntry.dict ⟨Role.user, u, none⟩ ∈ turnWindow log u :=
  List.mem_map_of_mem CtxEntry.dict (mem_get_context_messages_last log u)

/-- C7: the user message is persisted before the first endpoint call — the
final log always extends `log ++ [user]`, and the user message is inside the
first call's submitted window; if the first call raises, the log holds
exactly the old log plus the user message; if the tool round succeeded and
the second call raises, the log additionally holds every persisted
tool-result message. In every failure case the turn returns the endpoint's
error with the persisted state intact for a retry. -/
theorem chat_turn_durable (log : List Message) (title : Option String)
    (u : String) (r1 r2 : Except String ModelMessage)
    (srch : String → Except String String) :
    (∃ tail, (chat_turn log title u r1 r2 srch).log
        = log ++ [⟨Role.user, u, none⟩] ++ tail) ∧
    (∀ call ∈ (chat_turn log title u r1 r2 srch).calls.take 1,
        CtxEntry.dict ⟨Role.user, u, none⟩ ∈ call.1) ∧
    (∀ e, r1 = Except.error e →
        (chat_turn log title u r1 r2 srch).log = log ++ [⟨Role.user, u, none⟩] ∧
        (chat_turn log title u r1 r2 srch).result = Except.error e) ∧
    (∀ m e, r1 = Except.ok m → r2 = Except.error e → m.tool_calls ≠ [] →
        (toolLoop srch m.tool_calls).2.2 = none →
        (chat_turn log title u r1 r2 srch).log
          = log ++ [⟨Role.user, u, none⟩] ++ (toolLoop srch m.tool_calls).1 ∧
        (chat_turn log title u r1 r2 srch).result = Except.error e) := by
  have hmem := user_mem_turnWindow log u
  rcases chat_turn_shape log title u r1 r2 srch with
    ⟨e, hr1, hout⟩ | ⟨mc, hr1, hout⟩ | ⟨mc, tc, tcs, msgs, ctx, e, hr1, hlp, hout⟩ |
    ⟨mc, tc, tcs, msgs, ctx, e, hr1, hlp, hr2, hout⟩ |
    ⟨mc, tc, tcs, msgs, ctx, tcs2, hr1, hlp, hr2, hout⟩ |
    ⟨mc, tc, tcs, msgs, ctx, c, tcs2, hr1, hlp, hr2, hout⟩ <;> rw [hout]
  · refine ⟨⟨[], by simp [add_message]⟩, ?_, ?_, ?_⟩
    · intro call hc
      simp only [List.take_succ_cons, List.take_zero, List.mem_singleton] at hc
      rw [hc]
      exact hmem
    · intro e0 he
      rw [hr1] at he
      injection he with he
      subst he
      exact ⟨rfl, rfl⟩
    · intro m e0 hm he hne hloop
      rw [hr1] at hm
      simp at hm
  · refine ⟨⟨[⟨Role.assistant, strip (mc.getD ""), none⟩], by simp [add_message]⟩,
      ?_, ?_, ?_⟩
    · intro call hc
      simp only [List.take_succ_cons, List.take_zero, List.mem_singleton] at hc
      rw [hc]
      exact hmem
    · intro e0 he
      rw [hr1] at he
      simp at he
    · intro m e0 hm he hne hloop
      rw [hr1] at hm
      injection hm with hm
      subst hm
      simp at hne
  · refine ⟨⟨msgs, by simp [add_message]⟩, ?_, ?_, ?_⟩
    · intro call hc
      simp only [List.take_succ_cons, List.take_zero, List.mem_singleton] at hc
      rw [hc]
      exact hmem
    · intro e0 he
      rw [hr1] at he
      simp at he
    · intro m e0 hm he hne hloop
      rw [hr1] at hm
      injection hm with hm
      subst hm
      rw [hlp] at hloop
      simp at hloop
  · refine ⟨⟨msgs, by simp [add_message]⟩, ?_, ?_, ?_⟩
    · intro call hc
      simp only [List.take_succ_cons, List.take_zero, List.mem_singleton] at hc
      rw [hc]
      exact hmem
    · intro e0 he
      rw [hr1] at he
      simp at he
    · intro m e0 hm he hne hloop
      rw [hr1] at hm
      injection hm with hm
      subst hm
      rw [hr2] at he
      injection he with he
      subst he
      rw [hlp]
      exact ⟨by simp [add_message], rfl⟩
  · refine ⟨⟨msgs, by simp [add_message]⟩, ?_, ?_, ?_⟩
    · intro call hc
      simp only [List.take_succ_cons, List.take_zero, List.mem_singleton] at hc
      rw [hc]
      exact hmem
    · intro e0 he
      rw [hr1] at he
      simp at he
    · intro m e0 hm he hne hloop
      rw [hr2] at he
      simp at he
  · refine ⟨⟨msgs ++ [⟨Role.assistant, strip c, none⟩], by simp [add_message]⟩,
      ?_, ?_, ?_⟩
    · intro call hc
      simp only [List.take_succ_cons, List.take_zero, List.mem_singleton] at hc
      rw [hc]
      exact hmem
    · intro e0 he
      rw [hr1] at he
      simp at he
    · intro m e0 hm he hne hloop
      rw [hr2] at he
      simp at he

set_option maxRecDepth 16384 in
/-- Witness for C7: a first-call endpoint failure leaves exactly the user
message persisted; the user message is in the first call's window; a
second-call failure after a successful tool round leaves the tool result
persisted as well. -/
theorem chat_turn_durable_witness :
    (chat_turn create_chat_log none "q" (Except.error "boom")
        (Except.error "unused") (fun _ => Except.ok "p")).log
      = create_chat_log ++ [⟨Role.user, "q", none⟩] ∧
    (chat_turn create_chat_log none "q" (Except.error "boom")
        (Except.error "unused") (fun _ => Except.ok "p")).result
      = Except.error "boom" ∧
    CtxEntry.dict ⟨Role.user, "q", none⟩ ∈ turnWindow create_chat_log "q" ∧
    (chat_turn create_chat_log none "t"
        (Except.ok ⟨none, [⟨"i1", "web_search", "qq"⟩]⟩)
        (Except.error "late") (fun _ => Except.ok "p")).log
      = create_chat_log ++ [⟨Role.user, "t", none⟩]
        ++ (toolLoop (fun _ => Except.ok "p") [⟨"i1", "web_search", "qq"⟩]).1 := by
  have h1 := (chat_turn_durable create_chat_log none "q" (Except.error "boom")
    (Except.error "unused") (fun _ => Except.ok "p")).2.2.1 "boom" rfl
  have h2 := (chat_turn_durable create_chat_log none "q" (Except.error "boom")
    (Except.error "unused") (fun _ => Except.ok "p")).2.1
    (turnWindow create_chat_log "q", true) (by decide)
  have h3 := ((chat_turn_durable create_chat_log none "t"
    (Except.ok ⟨none, [⟨"i1", "web_search", "qq"⟩]⟩)
    (Except.error "late") (fun _ => Except.ok "p")).2.2.2
    ⟨none, [⟨"i1", "web_search", "qq"⟩]⟩ "late" rfl rfl (by decide) (by decide)).1
  exact ⟨h1.1, h1.2, h2, h3⟩

/-- One `chat_turn` invocation only appends messages, and none of the
appended messages has role=system (they are the user message, tool results,
and possibly one assistant message). -/
theorem chat_turn_log_extends (log : List Message) (title : Option String)
    (u : String) (r1 r2 : Except String ModelMessage)
    (srch : String → Except String String) :
    ∃ tail, (chat_turn log title u r1 r2 srch).log = log ++ tail ∧
      ∀ m ∈ tail, m.role ≠ Role.system := by
  have huser : (⟨Role.user, u, none⟩ : Message).role ≠ Role.system := by simp
  have htool : ∀ (tc : ToolCall) (tcs : List ToolCall) (msgs : List Message)
      (ctx : List CtxEntry) (err : Option String),
      toolLoop srch (tc :: tcs) = (msgs, ctx, err) →
      ∀ m ∈ msgs, m.role = Role.tool := by
    intro tc tcs msgs ctx err hlp
    have := toolLoop_msgs_tool srch (tc :: tcs)
    rw [hlp] at this
    exact this
  rcases chat_turn_shape log title u r1 r2 srch with
    ⟨e, hr1, hout⟩ | ⟨mc, hr1, hout⟩ | ⟨mc, tc, tcs, msgs, ctx, e, hr1, hlp, hout⟩ |
    ⟨mc, tc, tcs, msgs, ctx, e, hr1, hlp, hr2, hout⟩ |
    ⟨mc, tc, tcs, msgs, ctx, tcs2, hr1, hlp, hr2, hout⟩ |
    ⟨mc, tc, tcs, msgs, ctx, c, tcs2, hr1, hlp, hr2, hout⟩ <;> rw [hout]
  · refine ⟨[⟨Role.user, u, none⟩], rfl, ?_⟩
    intro m hm
    simp only [List.mem_singleton] at hm
    subst hm
    exact huser
  · refine ⟨[⟨Role.user, u, none⟩, ⟨Role.assistant, strip (mc.getD ""), none⟩],
      by simp [add_message], ?_⟩
    intro m hm
    rcases List.mem_cons.mp hm with h | h
    · subst h; exact huser
    · simp only [List.mem_singleton] at h
      subst h; simp
  · refine ⟨⟨Role.user, u, none⟩ :: msgs, by simp [add_message], ?_⟩
    intro m hm
    rcases List.mem_cons.mp hm with h | h
    · subst h; exact huser
    · rw [htool tc tcs msgs ctx (some e) hlp m h]; decide
  · refine ⟨⟨Role.user, u, none⟩ :: msgs, by simp [add_message], ?_⟩
    intro m hm
    rcases List.mem_cons.mp hm with h | h
    · subst h; exact huser
    · rw [htool tc tcs msgs ctx none hlp m h]; decide
  · refine ⟨⟨Role.user, u, none⟩ :: msgs, by simp [add_message], ?_⟩
    intro m hm
    rcases List.mem_cons.mp hm with h | h
    · subst h; exact huser
    · rw [htool tc tcs msgs ctx none hlp m h]; decide
  · refine ⟨⟨Role.user, u, none⟩ :: (msgs ++ [⟨Role.assistant, strip c, none⟩]),
      by simp [add_message], ?_⟩
    intro m hm
    rcases List.mem_cons.mp hm with h | h
    · subst h; exact huser
    · rcases List.mem_append.mp h with h2 | h2
      · rw [htool tc tcs msgs ctx none hlp m h2]; decide
      · simp only [List.mem_singleton] at h2
        subst h2; simp

/-- The reachable conversation logs: produced by `create_chat` and then
evolved only by complete `chat_turn` invocations (with arbitrary endpoint
responses and search collaborator behaviour). Deletion removes the whole
conversation, so it does not appear as a step on a single log. -/
inductive Reachable : List Message → Prop where
  | init : Reachable create_chat_log
  | turn : ∀ {log : List Message} (title : Option String) (u : String)
      (r1 r2 : Except String ModelMessage) (srch : String → Except String String),
      Reachable log → Reachable (chat_turn log title u r1 r2 srch).log

/-- The log starts with the seed system message and contains no other
role=system message. -/
def SysFirst (log : List Message) : Prop :=
  ∃ rest, log = ⟨Role.system, SYSTEM, none⟩ :: rest ∧
    ∀ m ∈ rest, m.role ≠ Role.system

/-- C6: every conversation log reachable from `create_chat` through
`chat_turn` invocations has the seed system message as its earliest entry
and exactly one role=system message in total. -/
theorem reachable_system_first (log : List Message) (h : Reachable log) :
    SysFirst log ∧ (log.filter (fun m => m.role = Role.system)).length = 1 := by
  induction h with
  | init =>
    refine ⟨⟨[], rfl, by decide⟩, by decide⟩
  | turn title u r1 r2 srch _ ih =>
    rename_i lg ha
    obtain ⟨⟨rest, hlog, hrest⟩, _⟩ := ih
    subst hlog
    obtain ⟨tail, htail, htailsys⟩ :=
      chat_turn_log_extends (⟨Role.system, SYSTEM, none⟩ :: rest) title u r1 r2 srch
    have hsf : SysFirst
        (chat_turn (⟨Role.system, SYSTEM, none⟩ :: rest) title u r1 r2 srch).log := by
      refine ⟨rest ++ tail, by rw [htail]; rfl, ?_⟩
      intro m hm
      rcases List.mem_append.mp hm with h | h
      · exact hrest m h
      · exact htailsys m h
    refine ⟨hsf, ?_⟩
    obtain ⟨rest2, hlog2, hrest2⟩ := hsf
    rw [hlog2, List.filter_cons]
    have hpos : (decide ((⟨Role.system, SYSTEM, none⟩ : Message).role
        = Role.system)) = true := by decide
    rw [hpos]
    simp only [if_true, List.length_cons]
    have : rest2.filter (fun m => m.role = Role.system) = [] := by
      rw [List.filter_eq_nil_iff]
      intro m hm
      simpa using hrest2 m hm
    rw [this]
    rfl

/-- Witness for C6: the freshly created conversation satisfies the
invariant. -/
theorem reachable_system_first_witness :
    SysFirst create_chat_log ∧
    (create_chat_log.filter (fun m => m.role = Role.system)).length = 1 :=
  reachable_system_first create_chat_log Reachable.init

end Chatbot
